import Mathlib

/-!
# Leaderboard score-update subsystem: shallow embedding and verification

This file embeds the leaderboard subsystem of the `temp-server` repository
(Express + Mongoose) into Lean and proves properties stated in its
specification.

Two variants of the `POST /leaderboard` handler occur in the repository:

* `src/index.js` (identical in `src/unnamed/part_001`): on an existing entry it
  always assigns `existingEntry.score = score` and assigns
  `existingEntry.highScore = score` only when `score > existingEntry.highScore`.
* `src/unnamed/part_000`: on an existing entry it writes `score` and
  `highScore` together only when `score > existingEntry.highScore`, otherwise
  it writes nothing and reports "Score not high enough to update leaderboard".

Scores are JavaScript numbers used as integers by the routes; we model them as
`Int` (negative submissions are accepted by the code, so `Nat` would be wrong).
MongoDB ObjectIds are opaque identifiers; we model them as `Nat`.
-/

namespace Leaderboard

/-- A document of the `Leaderboard` mongoose collection (`leaderboardSchema`):
`userId` (required), `userName` (required), `userImage` (optional),
`country` (optional), `score` (default 0), `highScore` (default 0).
Optional schema fields with no default are `Option`-valued. -/
structure LeaderboardEntry where
  userId : Nat
  userName : String
  userImage : Option String
  country : Option String
  score : Int
  highScore : Int
deriving DecidableEq

/-- A submission body for `POST /leaderboard` in which every field the two
handler variants ever destructure is present.  `country` is carried because
the `part_000` variant destructures it; the `src/index.js` variant ignores it. -/
structure Submission where
  userId : Nat
  userName : String
  userImage : Option String
  country : Option String
  score : Int
deriving DecidableEq

/-- The update branch of `POST /leaderboard` in `src/index.js` (lines 85-95):
`existingEntry.score = score`, then
`if (score > existingEntry.highScore) existingEntry.highScore = score`.
The guard reads `highScore`, which the preceding `score` assignment does not
touch, so the two statements amount to this single conditional record update. -/
def updateScoreIndexJs (e : LeaderboardEntry) (score : Int) : LeaderboardEntry :=
  if score > e.highScore then { e with score := score, highScore := score }
  else { e with score := score }

/-- The update branch of `POST /leaderboard` in `src/unnamed/part_000`
(lines 88-99): only when `score > existingEntry.highScore` are both
`score` and `highScore` assigned and the entry saved; otherwise nothing
is written. -/
def updateScorePart000 (e : LeaderboardEntry) (score : Int) : LeaderboardEntry :=
  if score > e.highScore then { e with score := score, highScore := score } else e

/-- The three response kinds of the submit protocol: `created`
("Leaderboard entry created successfully"), `updated`
("Leaderboard updated successfully"), and `notImproved`
("Score not high enough to update leaderboard", only ever produced by the
`part_000` variant). -/
inductive SubmitOutcome where
  | created
  | updated
  | notImproved
deriving DecidableEq

/-- The observable result of one `POST /leaderboard` request: the response
message kind and the entry returned in the response body. -/
structure SubmitResult where
  outcome : SubmitOutcome
  entry : LeaderboardEntry
deriving DecidableEq

/-- `POST /leaderboard` of `src/index.js` given the entry `findOne` returned
(`none` when no entry with this `userId` exists).  On create, the handler
passes `userId`, `userName`, `userImage`, `score` and `highScore: score` to
`Leaderboard.create`; it never passes `country`, and `leaderboardSchema` gives
`country` no default, so the stored document has no `country` value. -/
def submitIndexJs (existing : Option LeaderboardEntry) (sub : Submission) : SubmitResult :=
  match existing with
  | none =>
      { outcome := .created
        entry :=
          { userId := sub.userId, userName := sub.userName, userImage := sub.userImage
            country := none, score := sub.score, highScore := sub.score } }
  | some e => { outcome := .updated, entry := updateScoreIndexJs e sub.score }

/-- `POST /leaderboard` of `src/unnamed/part_000` given the entry `findOne`
returned.  On create it also passes `country`.  On an existing entry it
updates only when `score > highScore`, otherwise it returns the unchanged
entry with the "Score not high enough" message. -/
def submitPart000 (existing : Option LeaderboardEntry) (sub : Submission) : SubmitResult :=
  match existing with
  | none =>
      { outcome := .created
        entry :=
          { userId := sub.userId, userName := sub.userName, userImage := sub.userImage
            country := sub.country, score := sub.score, highScore := sub.score } }
  | some e =>
      if sub.score > e.highScore then
        { outcome := .updated
          entry := { e with score := sub.score, highScore := sub.score } }
      else
        { outcome := .notImproved, entry := e }

/-- A concrete existing entry used in counterexamples. -/
def exEntry : LeaderboardEntry :=
  { userId := 1, userName := "alice", userImage := none, country := none
    score := 100, highScore := 100 }

/-- A concrete submission whose score 50 does not beat `exEntry`'s high
score 100. -/
def exSub50 : Submission :=
  { userId := 1, userName := "alice", userImage := none, country := none, score := 50 }

theorem updateScoreIndexJs_score (e : LeaderboardEntry) (s : Int) :
    (updateScoreIndexJs e s).score = s := by
  unfold updateScoreIndexJs
  split <;> rfl

theorem updateScoreIndexJs_highScore (e : LeaderboardEntry) (s : Int) :
    (updateScoreIndexJs e s).highScore = max e.highScore s := by
  unfold updateScoreIndexJs
  split <;> (dsimp only; omega)

theorem submitIndexJs_entry_score (prev : Option LeaderboardEntry) (sub : Submission) :
    (submitIndexJs prev sub).entry.score = sub.score := by
  cases prev with
  | none => rfl
  | some e => exact updateScoreIndexJs_score e sub.score

theorem submitIndexJs_score_le_highScore (prev : Option LeaderboardEntry) (sub : Submission) :
    sub.score ≤ (submitIndexJs prev sub).entry.highScore := by
  cases prev with
  | none => exact le_refl _
  | some e =>
      show sub.score ≤ (updateScoreIndexJs e sub.score).highScore
      rw [updateScoreIndexJs_highScore]
      exact le_max_right _ _

theorem submitPart000_score_le_highScore (prev : Option LeaderboardEntry) (sub : Submission) :
    sub.score ≤ (submitPart000 prev sub).entry.highScore := by
  cases prev with
  | none => exact le_refl _
  | some e =>
      simp only [submitPart000]
      split
      · exact le_refl _
      · next h => dsimp only; omega

theorem submitPart000_notImproved (e : LeaderboardEntry) (sub : Submission)
    (h : sub.score ≤ e.highScore) :
    submitPart000 (some e) sub = { outcome := .notImproved, entry := e } := by
  simp only [submitPart000]
  rw [if_neg (by omega)]


/-- C8: For every record and every submission applied to it, in both variants
the record's `highScore` after the submission is greater than or equal to the
`highScore` before it: `highScore` is monotonically non-decreasing. -/
theorem highScore_monotone (e : LeaderboardEntry) (s : Int) :
    e.highScore ≤ (updateScoreIndexJs e s).highScore ∧
    e.highScore ≤ (updateScorePart000 e s).highScore := by
  constructor
  · rw [updateScoreIndexJs_highScore]; exact le_max_left _ _
  · unfold updateScorePart000
    split
    · next h => simp only []; omega
    · exact le_refl _

/-- C2: The two update rules diverge.  For an existing record and a submission
with `submittedScore ≤ highScore`, the `part_000` rule writes nothing, while
the `src/index.js` rule always sets `score` to the submitted value; on the
concrete entry `exEntry` (score 100, highScore 100) and submitted score 50 the
two update functions produce different records, so they are not extensionally
equal. -/
theorem update_rules_divergent :
    (∀ (e : LeaderboardEntry) (s : Int), s ≤ e.highScore → updateScorePart000 e s = e) ∧
    (∀ (e : LeaderboardEntry) (s : Int), (updateScoreIndexJs e s).score = s) ∧
    updateScorePart000 exEntry 50 ≠ updateScoreIndexJs exEntry 50 := by
  refine ⟨?_, ?_, ?_⟩
  · intro e s h
    unfold updateScorePart000
    split
    · next hgt => omega
    · rfl
  · intro e s
    exact updateScoreIndexJs_score e s
  · decide

/-- Witness for `update_rules_divergent`: its first conjunct applied to the
concrete entry `exEntry` and score 50. -/
theorem update_rules_divergent_witness :
    updateScorePart000 exEntry 50 = exEntry :=
  update_rules_divergent.1 exEntry 50 (by decide)

/-- C9: Submitting the same score twice in a row for the same participant is
idempotent on the record's scores, in both variants and from any prior state
(no record yet, or an existing record): the second submission leaves both
`score` and `highScore` exactly as they were after the first. -/
theorem resubmit_same_score_idempotent (prev : Option LeaderboardEntry) (sub : Submission) :
    ((submitIndexJs (some (submitIndexJs prev sub).entry) sub).entry.score
        = (submitIndexJs prev sub).entry.score ∧
      (submitIndexJs (some (submitIndexJs prev sub).entry) sub).entry.highScore
        = (submitIndexJs prev sub).entry.highScore) ∧
    ((submitPart000 (some (submitPart000 prev sub).entry) sub).entry.score
        = (submitPart000 prev sub).entry.score ∧
      (submitPart000 (some (submitPart000 prev sub).entry) sub).entry.highScore
        = (submitPart000 prev sub).entry.highScore) := by
  constructor
  · have hle := submitIndexJs_score_le_highScore prev sub
    constructor
    · rw [submitIndexJs_entry_score, submitIndexJs_entry_score]
    · show (updateScoreIndexJs (submitIndexJs prev sub).entry sub.score).highScore = _
      rw [updateScoreIndexJs_highScore]
      omega
  · rw [submitPart000_notImproved (submitPart000 prev sub).entry sub
      (submitPart000_score_le_highScore prev sub)]
    exact ⟨rfl, rfl⟩

/-- C5 counterexample: with the existing entry `exEntry` (highScore 100) and
the submission `exSub50` (score 50 ≤ 100), no variant both performs the
`currentScore` update and reports a no-improvement outcome: the
`src/index.js` variant updates `score` but reports `updated` (its message is
the generic "Leaderboard updated successfully"), and the `part_000` variant
reports `notImproved` but leaves `score` at 100 instead of 50. -/
theorem not_improved_response_counterexample :
    exSub50.score ≤ exEntry.highScore ∧
    (submitIndexJs (some exEntry) exSub50).outcome ≠ SubmitOutcome.notImproved ∧
    (submitPart000 (some exEntry) exSub50).entry.score ≠ exSub50.score := by
  refine ⟨by decide, by decide, by decide⟩

/-- C5 amended: for every existing record and submission with
`submittedScore ≤ highScore`, neither variant raises an error (both handlers
are total on this input shape); the `src/index.js` variant performs the
`currentScore` update, leaves `highScore` unchanged, and reports outcome
`updated`; the `part_000` variant reports `notImproved` and performs no update
at all. -/
theorem low_score_submit_behavior (e : LeaderboardEntry) (sub : Submission)
    (h : sub.score ≤ e.highScore) :
    (submitIndexJs (some e) sub).outcome = SubmitOutcome.updated ∧
    (submitIndexJs (some e) sub).entry.score = sub.score ∧
    (submitIndexJs (some e) sub).entry.highScore = e.highScore ∧
    (submitPart000 (some e) sub).outcome = SubmitOutcome.notImproved ∧
    (submitPart000 (some e) sub).entry = e := by
  have hni := submitPart000_notImproved e sub h
  refine ⟨rfl, updateScoreIndexJs_score e sub.score, ?_, ?_, ?_⟩
  · show (updateScoreIndexJs e sub.score).highScore = e.highScore
    rw [updateScoreIndexJs_highScore]
    omega
  · rw [hni]
  · rw [hni]

/-- Witness for `low_score_submit_behavior` at the concrete entry `exEntry`
and submission `exSub50`. -/
theorem low_score_submit_behavior_witness :
    (submitIndexJs (some exEntry) exSub50).outcome = SubmitOutcome.updated ∧
    (submitIndexJs (some exEntry) exSub50).entry.score = exSub50.score ∧
    (submitIndexJs (some exEntry) exSub50).entry.highScore = exEntry.highScore ∧
    (submitPart000 (some exEntry) exSub50).outcome = SubmitOutcome.notImproved ∧
    (submitPart000 (some exEntry) exSub50).entry = exEntry :=
  low_score_submit_behavior exEntry exSub50 (by decide)

/-- A submission that carries a changed `userName`, `userImage` and a
`country`, aimed at the existing `exEntry`. -/
def exSubNewName : Submission :=
  { userId := 1, userName := "newname", userImage := some "img2.png"
    country := some "BD", score := 100 }

/-- C10 counterexample: in the `src/index.js` variant the update branch writes
only `score` (and conditionally `highScore`); it does not write the submitted
`userName`, so not every non-country submitted field is written. Updating
`exEntry` (userName "alice") with `exSubNewName` (userName "newname") leaves
the stored userName at "alice". -/
theorem update_branch_ignores_userName :
    (submitIndexJs (some exEntry) exSubNewName).entry.userName = "alice" ∧
    exSubNewName.userName = "newname" := by
  refine ⟨by decide, by decide⟩

/-- C10 amended: the `src/index.js` variant never stores `country`: the
handler destructures only `userId`, `userName`, `userImage` and `score` from
the body, so a created record has no `country` value even when the submission
supplies one, and an update leaves `country` unchanged.  On creation all the
destructured fields are written; on update only `score` (and conditionally
`highScore`) are written, while `userName` and `userImage` keep their stored
values. -/
theorem indexJs_country_never_stored (sub : Submission) (e : LeaderboardEntry) :
    (submitIndexJs none sub).entry.country = none ∧
    (submitIndexJs none sub).entry.userId = sub.userId ∧
    (submitIndexJs none sub).entry.userName = sub.userName ∧
    (submitIndexJs none sub).entry.userImage = sub.userImage ∧
    (submitIndexJs none sub).entry.score = sub.score ∧
    (submitIndexJs none sub).entry.highScore = sub.score ∧
    (submitIndexJs (some e) sub).entry.country = e.country ∧
    (submitIndexJs (some e) sub).entry.userId = e.userId ∧
    (submitIndexJs (some e) sub).entry.userName = e.userName ∧
    (submitIndexJs (some e) sub).entry.userImage = e.userImage := by
  refine ⟨rfl, rfl, rfl, rfl, rfl, rfl, ?_, ?_, ?_, ?_⟩ <;>
    · simp only [submitIndexJs, updateScoreIndexJs]
      split <;> rfl

/-- One step of a submission sequence against the `src/index.js` handler for a
fixed participant: the state is the stored entry (or `none` before the first
submission), and each step submits `base` with its `score` field replaced. -/
def stepIndexJs (base : Submission) (st : Option LeaderboardEntry) (s : Int) :
    Option LeaderboardEntry :=
  some (submitIndexJs st { base with score := s }).entry

/-- The stored entry after a whole sequence of score submissions for one
participant through the `src/index.js` handler, starting from no record. -/
def runIndexJs (base : Submission) (scores : List Int) : Option LeaderboardEntry :=
  scores.foldl (stepIndexJs base) none

theorem foldl_stepIndexJs_some (base : Submission) (l : List Int) (e : LeaderboardEntry) :
    ∃ r, l.foldl (stepIndexJs base) (some e) = some r ∧
      r.score = l.getLastD e.score ∧
      r.highScore = l.foldl max e.highScore := by
  induction l generalizing e with
  | nil => exact ⟨e, rfl, rfl, rfl⟩
  | cons s rest ih =>
      have hstep : stepIndexJs base (some e) s = some (updateScoreIndexJs e s) := rfl
      obtain ⟨r, hr, hscore, hhigh⟩ := ih (updateScoreIndexJs e s)
      refine ⟨r, ?_, ?_, ?_⟩
      · simpa [List.foldl_cons, hstep] using hr
      · rw [List.getLastD_cons, ← updateScoreIndexJs_score e s]
        exact hscore
      · rw [List.foldl_cons, ← updateScoreIndexJs_highScore e s]
        exact hhigh

/-- C1: Through the `src/index.js` handler (the canonical update rule of the
specification), for every nonempty sequence of score submissions for one
participant starting from no record, the stored entry exists and satisfies:
`highScore` is the maximum of all submitted scores seen so far (the fold of
`max` over the sequence) and `score` is the most recently submitted score.
In particular a lone first submission creates the record (outcome `created`)
with `score = highScore = submittedScore`. -/
theorem indexJs_submission_sequence_spec :
    (∀ sub : Submission,
      (submitIndexJs none sub).outcome = SubmitOutcome.created ∧
      (submitIndexJs none sub).entry.score = sub.score ∧
      (submitIndexJs none sub).entry.highScore = sub.score) ∧
    (∀ (base : Submission) (s : Int) (rest : List Int),
      ∃ r, runIndexJs base (s :: rest) = some r ∧
        r.score = rest.getLastD s ∧
        r.highScore = rest.foldl max s) := by
  constructor
  · intro sub
    exact ⟨rfl, rfl, rfl⟩
  · intro base s rest
    have h0 : stepIndexJs base none s =
        some ((submitIndexJs none { base with score := s }).entry) := rfl
    obtain ⟨r, hr, hscore, hhigh⟩ :=
      foldl_stepIndexJs_some base rest ((submitIndexJs none { base with score := s }).entry)
    exact ⟨r, hr, hscore, hhigh⟩

/-- The error a mongoose write rejects with when a field marked
`required: true` is absent. -/
inductive CreateError where
  | validationError
deriving DecidableEq

/-- Modelled on `Leaderboard.create` under `leaderboardSchema`
(`src/index.js` lines 297-324): `userId` and `userName` are `required: true`,
so their absence rejects with a validation error; `userImage` and `country`
are optional with no default; `score` and `highScore` default to `0` when not
supplied.  The schema declares no unique index on `userId`, so this operation
performs no duplicate check. -/
def leaderboardCreate (userId : Option Nat) (userName : Option String)
    (userImage country : Option String) (score highScore : Option Int) :
    Except CreateError LeaderboardEntry :=
  match userId, userName with
  | some uid, some uname =>
      .ok { userId := uid, userName := uname, userImage := userImage, country := country
            score := score.getD 0, highScore := highScore.getD 0 }
  | _, _ => .error .validationError

/-- A `POST /leaderboard` body in which any destructured field may be absent
(`undefined` in JavaScript). -/
structure SubmitRequest where
  userId : Option Nat
  userName : Option String
  userImage : Option String
  country : Option String
  score : Option Int
deriving DecidableEq

/-- The create path of `POST /leaderboard` in `src/index.js`: the handler
passes `userId`, `userName`, `userImage`, `score` and `highScore: score` to
`Leaderboard.create` and never passes `country`. -/
def createIndexJs (req : SubmitRequest) : Except CreateError LeaderboardEntry :=
  leaderboardCreate req.userId req.userName req.userImage none req.score req.score

/-- The create path of `POST /leaderboard` in `src/unnamed/part_000`, which
additionally passes `country`. -/
def createPart000 (req : SubmitRequest) : Except CreateError LeaderboardEntry :=
  leaderboardCreate req.userId req.userName req.userImage req.country req.score req.score

/-- A request with `userId` and `userName` present but no score. -/
def reqMissingScore : SubmitRequest :=
  { userId := some 7, userName := some "bob", userImage := none, country := none
    score := none }

/-- A request with `userId` and score present but no `userName`. -/
def reqMissingName : SubmitRequest :=
  { userId := some 7, userName := none, userImage := none, country := some "UK"
    score := some 42 }

/-- C4 counterexample: absence of the submitted score does not produce a
validation error — the schema defaults `score` and `highScore` to 0 and the
create succeeds — while absence of `userName` (a field the claim says is
accepted) does produce one.  So presence of `participantId` and
`submittedScore` is not the validation the code performs. -/
theorem validation_missing_score_accepted :
    createIndexJs reqMissingScore =
      .ok { userId := 7, userName := "bob", userImage := none, country := none
            score := 0, highScore := 0 } ∧
    createIndexJs reqMissingName = .error .validationError := by
  exact ⟨rfl, rfl⟩

/-- C4 amended: on the create path of both variants the only input validation
is the schema's `required` marks: the write fails with a validation error
exactly when `userId` or `userName` is absent.  A missing score is accepted
(it defaults `score` and `highScore` to 0), and negative scores and the other
missing fields are accepted unchecked. -/
theorem create_validation_characterization (req : SubmitRequest) :
    (createIndexJs req = .error .validationError ↔
      req.userId = none ∨ req.userName = none) ∧
    (createPart000 req = .error .validationError ↔
      req.userId = none ∨ req.userName = none) ∧
    (∀ uid uname, req.userId = some uid → req.userName = some uname →
      createIndexJs req =
        .ok { userId := uid, userName := uname, userImage := req.userImage
              country := none, score := req.score.getD 0, highScore := req.score.getD 0 }) := by
  refine ⟨?_, ?_, ?_⟩
  · unfold createIndexJs leaderboardCreate
    rcases hu : req.userId with _ | uid <;> rcases hn : req.userName with _ | uname <;>
      simp
  · unfold createPart000 leaderboardCreate
    rcases hu : req.userId with _ | uid <;> rcases hn : req.userName with _ | uname <;>
      simp
  · intro uid uname hu hn
    unfold createIndexJs leaderboardCreate
    rw [hu, hn]

/-- Witness for `create_validation_characterization` at the concrete request
`reqMissingScore`, discharging the presence hypotheses of its last conjunct. -/
theorem create_validation_characterization_witness :
    createIndexJs reqMissingScore =
      .ok { userId := 7, userName := "bob", userImage := none, country := none
            score := 0, highScore := 0 } :=
  (create_validation_characterization reqMissingScore).2.2 7 "bob" rfl rfl

/-- Insertion of an entry into a list kept in descending `highScore` order;
building block of the model of `Leaderboard.find().sort({ highScore: -1 })`. -/
def insertEntry (e : LeaderboardEntry) : List LeaderboardEntry → List LeaderboardEntry
  | [] => [e]
  | f :: rest =>
      if f.highScore ≤ e.highScore then e :: f :: rest else f :: insertEntry e rest

/-- Model of `Leaderboard.find().sort({ highScore: -1 })` of
`GET /leaderboard`: all stored entries in descending `highScore` order.
(The tie-break order is unspecified by MongoDB; this is one deterministic
descending sort, which is all the verified properties rely on.) -/
def sortByHighScoreDesc (db : List LeaderboardEntry) : List LeaderboardEntry :=
  db.foldr insertEntry []

/-- Model of `leaderboard.map((entry, index) => ({ rank: index + 1, ...entry }))`:
pair every entry with its 1-based position, starting after `i` already-emitted
rows. -/
def addRanks (i : Nat) : List LeaderboardEntry → List (Nat × LeaderboardEntry)
  | [] => []
  | e :: rest => (i + 1, e) :: addRanks (i + 1) rest

/-- The response body of `GET /leaderboard`: the sorted entries, each with its
1-based rank. -/
def getLeaderboard (db : List LeaderboardEntry) : List (Nat × LeaderboardEntry) :=
  addRanks 0 (sortByHighScoreDesc db)

theorem mem_insertEntry {x e : LeaderboardEntry} :
    ∀ {l : List LeaderboardEntry}, x ∈ insertEntry e l → x = e ∨ x ∈ l
  | [], h => by
      simp only [insertEntry, List.mem_singleton] at h
      exact Or.inl h
  | f :: rest, h => by
      simp only [insertEntry] at h
      split at h
      · rcases List.mem_cons.mp h with h1 | h1
        · exact Or.inl h1
        · exact Or.inr h1
      · rcases List.mem_cons.mp h with h1 | h1
        · exact Or.inr (h1 ▸ List.mem_cons_self f rest)
        · rcases mem_insertEntry h1 with h2 | h2
          · exact Or.inl h2
          · exact Or.inr (List.mem_cons_of_mem f h2)

theorem insertEntry_perm (e : LeaderboardEntry) :
    ∀ l : List LeaderboardEntry, (insertEntry e l).Perm (e :: l)
  | [] => List.Perm.refl _
  | f :: rest => by
      simp only [insertEntry]
      split
      · exact List.Perm.refl _
      · exact (List.Perm.cons f (insertEntry_perm e rest)).trans (List.Perm.swap e f rest)

theorem sortByHighScoreDesc_perm (db : List LeaderboardEntry) :
    (sortByHighScoreDesc db).Perm db := by
  induction db with
  | nil => exact List.Perm.refl _
  | cons d rest ih =>
      exact (insertEntry_perm d (sortByHighScoreDesc rest)).trans (List.Perm.cons d ih)

theorem pairwise_insertEntry {e : LeaderboardEntry} :
    ∀ {l : List LeaderboardEntry},
      List.Pairwise (fun a b => b.highScore ≤ a.highScore) l →
      List.Pairwise (fun a b => b.highScore ≤ a.highScore) (insertEntry e l)
  | [], _ => by simp [insertEntry]
  | f :: rest, h => by
      rcases List.pairwise_cons.mp h with ⟨hf, hrest⟩
      simp only [insertEntry]
      split
      · next hle =>
          refine List.pairwise_cons.mpr ⟨?_, h⟩
          intro x hx
          rcases List.mem_cons.mp hx with h1 | h1
          · exact h1 ▸ hle
          · exact le_trans (hf x h1) hle
      · next hgt =>
          refine List.pairwise_cons.mpr ⟨?_, pairwise_insertEntry hrest⟩
          intro x hx
          rcases mem_insertEntry hx with h1 | h1
          · subst h1; omega
          · exact hf x h1

theorem sortByHighScoreDesc_pairwise (db : List LeaderboardEntry) :
    List.Pairwise (fun a b => b.highScore ≤ a.highScore) (sortByHighScoreDesc db) := by
  induction db with
  | nil => exact List.Pairwise.nil
  | cons d rest ih => exact pairwise_insertEntry ih

theorem addRanks_map_snd (l : List LeaderboardEntry) :
    ∀ i : Nat, (addRanks i l).map Prod.snd = l := by
  induction l with
  | nil => intro i; rfl
  | cons e rest ih =>
      intro i
      simp only [addRanks, List.map_cons, ih]

theorem addRanks_map_fst (l : List LeaderboardEntry) :
    ∀ i : Nat, (addRanks i l).map Prod.fst = List.range' (i + 1) l.length := by
  induction l with
  | nil => intro i; rfl
  | cons e rest ih =>
      intro i
      simp only [addRanks, List.map_cons, List.length_cons, List.range'_succ, ih]

theorem mem_addRanks {p : Nat × LeaderboardEntry} :
    ∀ {l : List LeaderboardEntry} {i : Nat}, p ∈ addRanks i l → i < p.1 ∧ p.2 ∈ l := by
  intro l
  induction l with
  | nil => intro i h; cases h
  | cons e rest ih =>
      intro i h
      rcases List.mem_cons.mp h with h1 | h1
      · subst h1
        exact ⟨Nat.lt_succ_self i, List.mem_cons_self e rest⟩
      · rcases ih h1 with ⟨hi, hmem⟩
        exact ⟨Nat.lt_of_succ_lt hi, List.mem_cons_of_mem e hmem⟩

theorem addRanks_pairwise :
    ∀ {l : List LeaderboardEntry},
      List.Pairwise (fun a b => b.highScore ≤ a.highScore) l →
      ∀ i : Nat,
        List.Pairwise (fun a b : Nat × LeaderboardEntry =>
          b.2.highScore ≤ a.2.highScore ∧ a.1 < b.1) (addRanks i l)
  | [], _, _ => List.Pairwise.nil
  | e :: rest, h, i => by
      rcases List.pairwise_cons.mp h with ⟨he, hrest⟩
      refine List.pairwise_cons.mpr ⟨?_, addRanks_pairwise hrest (i + 1)⟩
      intro q hq
      rcases mem_addRanks hq with ⟨hi, hmem⟩
      exact ⟨he q.2 hmem, hi⟩

theorem pairwise_mem_cases {α : Type} {R : α → α → Prop} :
    ∀ {l : List α}, l.Pairwise R → ∀ {a b : α}, a ∈ l → b ∈ l → a = b ∨ R a b ∨ R b a := by
  intro l
  induction l with
  | nil => intro _ a b ha; cases ha
  | cons c rest ih =>
      intro h a b ha hb
      rcases List.pairwise_cons.mp h with ⟨hc, hrest⟩
      rcases List.mem_cons.mp ha with ha1 | ha1 <;> rcases List.mem_cons.mp hb with hb1 | hb1
      · exact Or.inl (ha1.trans hb1.symm)
      · exact Or.inr (Or.inl (ha1 ▸ hc b hb1))
      · exact Or.inr (Or.inr (hb1 ▸ hc a ha1))
      · exact ih hrest ha1 hb1

/-- C3: `GET /leaderboard` returns every stored record (the underlying entries
are a permutation of the store), the ranks are exactly the 1-based positions
`1, 2, …, n` in the returned order, consecutive rows are sorted by `highScore`
descending with strictly increasing rank, and consequently for every two
returned rows `a` and `b`, if `a`'s `highScore` is strictly greater than
`b`'s then `a`'s rank is strictly smaller. -/
theorem full_ranking_spec (db : List LeaderboardEntry) :
    ((getLeaderboard db).map Prod.snd).Perm db ∧
    (getLeaderboard db).map Prod.fst = List.range' 1 db.length ∧
    List.Pairwise (fun a b : Nat × LeaderboardEntry =>
      b.2.highScore ≤ a.2.highScore ∧ a.1 < b.1) (getLeaderboard db) ∧
    ∀ a ∈ getLeaderboard db, ∀ b ∈ getLeaderboard db,
      b.2.highScore < a.2.highScore → a.1 < b.1 := by
  have hperm : ((getLeaderboard db).map Prod.snd).Perm db := by
    rw [getLeaderboard, addRanks_map_snd]
    exact sortByHighScoreDesc_perm db
  have hlen : (sortByHighScoreDesc db).length = db.length :=
    (sortByHighScoreDesc_perm db).length_eq
  have hpw := addRanks_pairwise (sortByHighScoreDesc_pairwise db) 0
  refine ⟨hperm, ?_, hpw, ?_⟩
  · rw [getLeaderboard, addRanks_map_fst, hlen]
  · intro a ha b hb hgt
    rcases pairwise_mem_cases hpw ha hb with h | h | h
    · subst h; omega
    · exact h.2
    · rcases h with ⟨hle, _⟩; omega

/-- A concrete low-scoring entry used in witnesses. -/
def eLow : LeaderboardEntry :=
  { userId := 2, userName := "carol", userImage := none, country := none
    score := 10, highScore := 10 }

/-- Witness for `full_ranking_spec` on the concrete store `[exEntry, eLow]`:
`exEntry` (highScore 100) is ranked 1, `eLow` (highScore 10) is ranked 2. -/
theorem full_ranking_spec_witness : (1, exEntry).1 < (2, eLow).1 :=
  (full_ranking_spec [exEntry, eLow]).2.2.2 (1, exEntry) (by decide) (2, eLow)
    (by decide) (by decide)

theorem updateScoreIndexJs_userId (e : LeaderboardEntry) (s : Int) :
    (updateScoreIndexJs e s).userId = e.userId := by
  unfold updateScoreIndexJs
  split <;> rfl

/-- `existingEntry.save()`: persist the mutated document back into the store,
replacing the (first) entry whose `userId` matches. -/
def savePut : List LeaderboardEntry → Nat → LeaderboardEntry → List LeaderboardEntry
  | [], _, _ => []
  | f :: rest, uid, e =>
      if f.userId == uid then e :: rest else f :: savePut rest uid e

/-- `POST /leaderboard` of `src/index.js` as a transition on the whole store:
`findOne({ userId })`, then either `create` (appending the new document — the
schema has no unique index, so the store runs no duplicate check) or mutate
and `save`. -/
def postLeaderboardIndexJsDb (db : List LeaderboardEntry) (sub : Submission) :
    SubmitResult × List LeaderboardEntry :=
  match db.find? (fun e => e.userId == sub.userId) with
  | none =>
      let r := submitIndexJs none sub
      (r, db ++ [r.entry])
  | some e =>
      let r := submitIndexJs (some e) sub
      (r, savePut db sub.userId r.entry)

/-- `POST /leaderboard` of `src/unnamed/part_000` as a transition on the whole
store; in the "not high enough" branch nothing is saved. -/
def postLeaderboardPart000Db (db : List LeaderboardEntry) (sub : Submission) :
    SubmitResult × List LeaderboardEntry :=
  match db.find? (fun e => e.userId == sub.userId) with
  | none =>
      let r := submitPart000 none sub
      (r, db ++ [r.entry])
  | some e =>
      let r := submitPart000 (some e) sub
      (r, if sub.score > e.highScore then savePut db sub.userId r.entry else db)

/-- `Leaderboard.create` as a store operation: schema validation followed by
appending the document.  `leaderboardSchema` declares no unique constraint on
`userId`, so nothing here inspects the existing contents of the store. -/
def storeInsert (db : List LeaderboardEntry) (userId : Option Nat)
    (userName : Option String) (userImage country : Option String)
    (score highScore : Option Int) : Except CreateError (List LeaderboardEntry) :=
  match leaderboardCreate userId userName userImage country score highScore with
  | .ok e => .ok (db ++ [e])
  | .error err => .error err

theorem savePut_map_userId (uid : Nat) (e : LeaderboardEntry) (he : e.userId = uid) :
    ∀ db : List LeaderboardEntry,
      (savePut db uid e).map (fun f => f.userId) = db.map (fun f => f.userId)
  | [] => rfl
  | f :: rest => by
      simp only [savePut]
      split
      · next hf =>
          simp only [List.map_cons, he]
          rw [eq_of_beq hf]
      · simp only [List.map_cons, savePut_map_userId uid e he rest]

/-- A duplicate-keyed document that `storeInsert` happily accepts. -/
def dupEntry : LeaderboardEntry :=
  { userId := 1, userName := "mallory", userImage := none, country := none
    score := 5, highScore := 5 }

/-- C6 counterexample: the store itself does not enforce uniqueness of
`userId`.  Inserting a second document with `userId = 1` into a store that
already holds `exEntry` (also `userId = 1`) succeeds, leaving two records for
the same participant; only the handler's `findOne` pre-check prevents this. -/
theorem store_accepts_duplicate_userId :
    storeInsert [exEntry] (some 1) (some "mallory") none none (some 5) (some 5) =
      .ok [exEntry, dupEntry] ∧
    dupEntry.userId = exEntry.userId := by
  exact ⟨rfl, rfl⟩

/-- C6 amended: in the sequential request model, one record per
`participantId` is an invariant of both `POST /leaderboard` variants — but it
is maintained by the handler's `findOne` pre-check, not by the store, since
`leaderboardSchema` declares no unique index on `userId`
(see `store_accepts_duplicate_userId`). -/
theorem handlers_preserve_unique_userId (db : List LeaderboardEntry) (sub : Submission)
    (h : (db.map (fun e => e.userId)).Nodup) :
    ((postLeaderboardIndexJsDb db sub).2.map (fun e => e.userId)).Nodup ∧
    ((postLeaderboardPart000Db db sub).2.map (fun e => e.userId)).Nodup := by
  cases hfind : db.find? (fun e => e.userId == sub.userId) with
  | none =>
      have habs : ∀ x ∈ db, x.userId ≠ sub.userId := by
        intro x hx
        have := List.find?_eq_none.mp hfind x hx
        simpa using this
      have hnodup : ∀ x : LeaderboardEntry, x.userId = sub.userId →
          ((db ++ [x]).map (fun e => e.userId)).Nodup := by
        intro x hx
        rw [List.map_append, List.nodup_append]
        refine ⟨h, List.nodup_singleton _, ?_⟩
        intro a ha hb
        simp only [List.map_cons, List.map_nil, List.mem_singleton] at hb
        rcases List.mem_map.mp ha with ⟨y, hy, hay⟩
        exact habs y hy (hay.trans (hb.trans hx))
      constructor
      · simp only [postLeaderboardIndexJsDb, hfind]
        exact hnodup _ rfl
      · simp only [postLeaderboardPart000Db, hfind]
        exact hnodup _ rfl
  | some e =>
      have hp : (e.userId == sub.userId) = true :=
        @List.find?_some _ (fun f => f.userId == sub.userId) e db hfind
      have heuid : e.userId = sub.userId := eq_of_beq hp
      constructor
      · simp only [postLeaderboardIndexJsDb, hfind]
        rw [savePut_map_userId sub.userId _
          (by show (updateScoreIndexJs e sub.score).userId = sub.userId
              rw [updateScoreIndexJs_userId, heuid]) db]
        exact h
      · simp only [postLeaderboardPart000Db, hfind]
        split
        · next hgt =>
            have hid : (submitPart000 (some e) sub).entry.userId = sub.userId := by
              simp only [submitPart000]
              rw [if_pos hgt]
              exact heuid
            rw [savePut_map_userId sub.userId _ hid db]
            exact h
        · exact h

/-- Witness for `handlers_preserve_unique_userId` on the concrete one-entry
store `[exEntry]` and submission `exSub50`. -/
theorem handlers_preserve_unique_userId_witness :
    ((postLeaderboardIndexJsDb [exEntry] exSub50).2.map (fun e => e.userId)).Nodup ∧
    ((postLeaderboardPart000Db [exEntry] exSub50).2.map (fun e => e.userId)).Nodup :=
  handlers_preserve_unique_userId [exEntry] exSub50 (by decide)

/-- A document of the `User` mongoose collection (`src/models/User.js`):
`name` and `email` required, `country` defaulting to "Unknown".  Only the
fields the leaderboard view reads are carried. -/
structure UserDoc where
  id : Nat
  name : String
  country : String
deriving DecidableEq

/-- One row of the `GET /leaderboard/user` response: the leaderboard fields
joined with the populated user's `country`, plus a 1-based rank. -/
structure UserViewRow where
  userId : Nat
  userName : String
  userImage : Option String
  country : Option String
  score : Int
  highScore : Int
  rank : Nat
deriving DecidableEq

/-- The full `GET /leaderboard/user` success payload. -/
structure UserView where
  userData : UserViewRow
  top10 : List UserViewRow
deriving DecidableEq

/-- `populate('userId', 'name country')` followed by reading `.country`:
look the participant up in the `User` collection. -/
def lookupUserCountry (users : List UserDoc) (uid : Nat) : Option String :=
  (users.find? (fun u => u.id == uid)).map (fun u => u.country)

/-- Build one response row from a stored entry, its rank and the user join. -/
def viewRow (users : List UserDoc) (rank : Nat) (e : LeaderboardEntry) : UserViewRow :=
  { userId := e.userId, userName := e.userName, userImage := e.userImage
    country := lookupUserCountry users e.userId, score := e.score
    highScore := e.highScore, rank := rank }

/-- `GET /leaderboard/user` of `src/unnamed/part_000` (lines 139-206): look up
the caller's entry with `findOne({ userId })`; when absent, respond 404
("User not found in leaderboard") — modelled as `none` — and otherwise build
the user's row (rank from `findIndex` over the full descending sort, plus 1)
and the ranked top-10 view. -/
def getLeaderboardUserView (users : List UserDoc) (db : List LeaderboardEntry)
    (uid : Nat) : Option UserView :=
  match db.find? (fun e => e.userId == uid) with
  | none => none
  | some entry =>
      let sorted := sortByHighScoreDesc db
      let top10 := (addRanks 0 (sorted.take 10)).map (fun p => viewRow users p.1 p.2)
      let userRank := sorted.findIdx (fun e => e.userId == uid) + 1
      some { userData := viewRow users userRank entry, top10 := top10 }

/-- C7: for every `participantId` that has no record in the store,
`GET /leaderboard/user` returns the not-found outcome (`none`, the 404
response) and never a partial or default record; this outcome is an ordinary
value of the handler, not an exception. -/
theorem user_view_unknown_id_not_found (users : List UserDoc)
    (db : List LeaderboardEntry) (uid : Nat) (h : ∀ e ∈ db, e.userId ≠ uid) :
    getLeaderboardUserView users db uid = none := by
  have hfind : db.find? (fun e => e.userId == uid) = none := by
    rw [List.find?_eq_none]
    intro x hx
    simpa using h x hx
  simp only [getLeaderboardUserView, hfind]

/-- Witness for `user_view_unknown_id_not_found`: id 99 is absent from the
one-entry store `[exEntry]` (whose only userId is 1). -/
theorem user_view_unknown_id_not_found_witness :
    getLeaderboardUserView [] [exEntry] 99 = none :=
  user_view_unknown_id_not_found [] [exEntry] 99 (by decide)
